import Mathlib

/-!
Shallow embedding of the per-job background scheduler of the
roli-trade-ad-automation repository, centred on
`src/src-tauri/src/ads_runner.rs` (registry, generation counter,
post-count ledger, job loop), `src/src-tauri/src/trade_ad.rs`
(`post_trade_ad_direct`), and the command surface in
`src/src-tauri/src/lib.rs` (`start_ad` command).

Machine integers (`u64`) are modelled as `Nat`: the counters involved only
ever grow by one per call and the registry holds finitely many entries, so
no wraparound behaviour is reachable in any scenario the theorems quantify
over.  The `HashMap` registries are modelled as association lists with a
no-duplicate-keys invariant; the oneshot cancellation sender carries no
data and is dropped from the registry entries (only the generation tag is
semantically relevant to registry logic).
-/

set_option maxRecDepth 100000

namespace RoliAds

/-- Embedding of `ads_storage::AdData` (src/src-tauri/src/ads_storage.rs,
lines 10-19). -/
structure AdData where
  id : String
  name : String
  player_id : Nat
  roli_verification : Option String
  offer_item_ids : List Nat
  request_item_ids : List Nat
  request_tags : List String
  interval_minutes : Nat
deriving Repr, DecidableEq

/-- Code points of a string, the representation over which the text tests
below compute (chosen for kernel reducibility). -/
def codes (s : String) : List Nat := s.toList.map Char.toNat

/-- Boolean prefix test on code-point lists (used to model Rust
`str::starts_with` and as the inner step of substring search). -/
def listPrefixEq : List Nat → List Nat → Bool
  | [], _ => true
  | _ :: _, [] => false
  | a :: as, b :: bs => a == b && listPrefixEq as bs

/-- Boolean substring test on code-point lists: does `s` contain `pat` as
a contiguous run?  Models Rust `str::contains(&str)`. -/
def listContainsSub (pat : List Nat) : List Nat → Bool
  | [] => pat.isEmpty
  | c :: t => listPrefixEq pat (c :: t) || listContainsSub pat t

/-- String-level substring containment, models Rust `str::contains`. -/
def strContainsSub (s pat : String) : Bool :=
  listContainsSub (codes pat) (codes s)

/-- Lower-casing of a single code point, models Rust `str::to_lowercase`
on the ASCII strings this code deals with. -/
def lcCodepoint (n : Nat) : Nat := if 65 ≤ n ∧ n ≤ 90 then n + 32 else n

/-- Lower-cased code points of a string. -/
def lowerCodes (s : String) : List Nat := (codes s).map lcCodepoint

/-- Canonical reason phrase used by the `Display` implementation of the
HTTP status type that `post_trade_ad_direct` formats into its error string
(`"Failed to post trade ad: {status} - {text}"`). -/
def canonicalReason (s : Nat) : String :=
  if s = 200 then "OK"
  else if s = 201 then "Created"
  else if s = 400 then "Bad Request"
  else if s = 401 then "Unauthorized"
  else if s = 403 then "Forbidden"
  else if s = 404 then "Not Found"
  else if s = 429 then "Too Many Requests"
  else if s = 500 then "Internal Server Error"
  else if s = 502 then "Bad Gateway"
  else if s = 503 then "Service Unavailable"
  else "<unknown status code>"

/-- Status rendering `"{code} {reason}"` as produced by the HTTP status
`Display` implementation. -/
def statusLine (s : Nat) : String := toString s ++ " " ++ canonicalReason s

/-- Success class of an HTTP status (`StatusCode::is_success`):
`200..=299`. -/
def isSuccessStatus (s : Nat) : Bool := 200 ≤ s && s < 300

/-- Environment response to one posting attempt: either the transport
failed before any status was obtained (the `?` on `send()` in
`post_trade_ad_direct`), or a response with a status code and body text
arrived. -/
inductive PostOutcome where
  | transportError (msg : String)
  | response (status : Nat) (body : String)
deriving Repr, DecidableEq

/-- Embedding of the result logic of `trade_ad::post_trade_ad_direct`
(src/src-tauri/src/trade_ad.rs, lines 216-235): a transport failure
propagates as an error carrying the transport message; a non-success
status becomes `Err("Failed to post trade ad: {status} - {text}")`; a
success status becomes `Ok("Trade ad posted successfully! Response: ...")`. -/
def post_trade_ad_direct : PostOutcome → Except String String
  | .transportError msg => .error msg
  | .response status body =>
      if isSuccessStatus status then
        .ok ("Trade ad posted successfully! Response: " ++ body)
      else
        .error ("Failed to post trade ad: " ++ statusLine status ++ " - " ++ body)

/-- Embedding of the verification test in the job loop
(src/src-tauri/src/ads_runner.rs, lines 145-146):
`err_str.starts_with("verification_required") ||
err_str.to_lowercase().contains("verification")`. -/
def is_verification (err : String) : Bool :=
  listPrefixEq (codes "verification_required") (codes err)
    || listContainsSub (codes "verification") (lowerCodes err)

/-- Classification kinds the runner actually distinguishes for a posting
outcome: the `Ok` branch, the verification-error branch, and the generic
error branch (emitted as `error_kind: "other"`). -/
inductive OutcomeKind where
  | success
  | verification
  | other
deriving Repr, DecidableEq

/-- Classification of one posting outcome, as performed by the
`match ... { Ok(..) => ..., Err(err) => ... }` on the result of
`post_trade_ad_direct` in the job loop (src/src-tauri/src/ads_runner.rs,
lines 106-170). -/
def classify_outcome (o : PostOutcome) : OutcomeKind :=
  match post_trade_ad_direct o with
  | .ok _ => .success
  | .error e => if is_verification e then .verification else .other

/-- Embedding of the effective-interval computation in `ads_runner::start_ad`
(src/src-tauri/src/ads_runner.rs, lines 59-68): prefer the override, else
the stored value when non-zero, else unset.  A stored value of `0` is the
code's encoding of "no job-specific value", so the spec's
`resolve(None, None)` case is `resolveInterval none 0` here. -/
def resolveInterval (interval_override : Option Nat) (stored_interval_minutes : Nat) :
    Option Nat :=
  match interval_override with
  | some v => some v
  | none =>
      if stored_interval_minutes ≠ 0 then some stored_interval_minutes else none

/-- Runner registry: association-list model of the `RUNNERS` hash map
(src/src-tauri/src/ads_runner.rs, lines 15-16), mapping ad id to the
generation tag (`runner_unique_id`) of the live runner.  The oneshot
cancellation sender stored alongside the tag carries no data and is not
modelled. -/
abbrev Registry := List (String × Nat)

/-- Lookup in the registry, models `HashMap::get`. -/
def lookupReg : Registry → String → Option Nat
  | [], _ => none
  | (k, v) :: t, id => if k = id then some v else lookupReg t id

/-- Key-membership test, models `HashMap::contains_key`. -/
def containsReg (reg : Registry) (id : String) : Bool :=
  (lookupReg reg id).isSome

/-- Removal of the entry for a key, models `HashMap::remove` (under the
no-duplicate-keys invariant the first occurrence is the only one). -/
def eraseReg : Registry → String → Registry
  | [], _ => []
  | (k, v) :: t, id => if k = id then t else (k, v) :: eraseReg t id

/-- The registry keys are pairwise distinct — the representation invariant
a hash map provides by construction. -/
abbrev keysNodup (reg : Registry) : Prop := (reg.map Prod.fst).Nodup

/-- Generation-checked self-deregistration performed by an exiting job
loop (src/src-tauri/src/ads_runner.rs, lines 193-200): under the lock,
remove the entry for `id` only when the stored generation equals the
exiting task's own generation `g`. -/
def remove_if_current (reg : Registry) (id : String) (g : Nat) : Registry :=
  match lookupReg reg id with
  | some g2 => if g2 = g then eraseReg reg id else reg
  | none => reg

/-- Scheduler state: the `RUNNERS` registry, the `RUNNER_COUNTER` atomic
(initialised to 1), and the `POST_COUNTS` ledger
(src/src-tauri/src/ads_runner.rs, lines 15-22). -/
structure RState where
  runners : Registry
  counter : Nat
  counts : List (String × Nat)
deriving Repr, DecidableEq

/-- Process-start state: empty registry, counter 1, empty ledger. -/
def RState.initial : RState := ⟨[], 1, []⟩

/-- Embedding of the registration phase of `ads_runner::start_ad`
(src/src-tauri/src/ads_runner.rs, lines 44-55): `fetch_add` on the
counter happens first (returning the previous value as `my_id`); then,
under one lock acquisition, either the id is found present (return `Ok`
with nothing spawned) or the slot is reserved with `(id, my_id)` before
the task is spawned.  The second component is `some g` when a runner with
generation `g` was spawned, `none` when the call was a no-op. -/
def start_ad_runner (s : RState) (id : String) : RState × Option Nat :=
  let my_id := s.counter
  let counter2 := s.counter + 1
  if containsReg s.runners id then
    ({ s with counter := counter2 }, none)
  else
    ({ s with counter := counter2, runners := (id, my_id) :: s.runners },
      some my_id)

/-- Embedding of `ads_runner::stop_ad` (src/src-tauri/src/ads_runner.rs,
lines 29-36): unconditionally remove the entry (the cancellation signal
consumed by the loop is modelled as truncation of the loop's outcome
list). -/
def stop_ad_state (s : RState) (id : String) : RState :=
  { s with runners := eraseReg s.runners id }

/-- Embedding of `ads_runner::list_running_ads`
(src/src-tauri/src/ads_runner.rs, lines 24-27). -/
def list_running_ads (s : RState) : List String := s.runners.map Prod.fst

/-- Ledger read with 0 for an absent entry (the `or_insert(0)` baseline). -/
def lookupCount : List (String × Nat) → String → Nat
  | [], _ => 0
  | (k, v) :: t, id => if k = id then v else lookupCount t id

/-- Ledger increment, models `pc.entry(id).or_insert(0); *entry += 1`
(src/src-tauri/src/ads_runner.rs, lines 109-111). -/
def bumpCount : List (String × Nat) → String → List (String × Nat)
  | [], id => [(id, 1)]
  | (k, v) :: t, id =>
      if k = id then (k, v + 1) :: t else (k, v) :: bumpCount t id

/-- One `ad:posted` event payload as built by the `win.emit` calls in the
job loop: fields of the `serde_json::json!` objects
(src/src-tauri/src/ads_runner.rs, lines 86, 124, 128-136, 164, 169, 181).
Absent JSON fields are `none`. -/
structure AdPostedEvent where
  id : String
  count : Nat
  message : String
  error_kind : Option String
  reason : Option String
  error_code : Option Nat
  next_wait_mins : Option Nat
deriving Repr, DecidableEq

/-- Loop control after one cycle: continue into the wait of `wait`
minutes, or break out of the loop. -/
inductive Ctl where
  | cont (wait : Nat)
  | halt
deriving Repr, DecidableEq

/-- Result of one iteration of the job-loop body: the ledger after the
cycle, the events emitted during the cycle, and the control decision. -/
structure CycleResult where
  counts : List (String × Nat)
  events : List AdPostedEvent
  ctl : Ctl
deriving Repr, DecidableEq

/-- Whitespace test on a code point (the characters Rust `str::trim`
strips; the ASCII cases are the ones reachable here). -/
def isWhitespaceCode (n : Nat) : Bool :=
  n == 32 || n == 9 || n == 10 || n == 13

/-- Blank test, models Rust `s.trim().is_empty()`: every character is
whitespace (in particular the empty string is blank). -/
def strBlank (s : String) : Bool := (codes s).all isWhitespaceCode

/-- Success message built for the UI (src/src-tauri/src/ads_runner.rs,
lines 114-118). -/
def successMessage (cnt : Nat) : String :=
  if cnt ≤ 1 then "trade ad post success"
  else "trade ad post success (" ++ toString cnt ++ ")"

/-- Embedding of one iteration of the job-loop body
(src/src-tauri/src/ads_runner.rs, lines 76-182), from the top of `loop`
to the computation of `next_wait_mins`, exclusive of the
`tokio::select!` wait.  `extractCode` abstracts the opportunistic
`serde_json` error-code extraction (lines 149-158), which feeds only the
diagnostic `error_code` field and never the control flow.  `eff` is the
`effective_interval` captured by the task closure; `o` is the
environment's answer to the posting attempt (consulted only when a call
is actually made). -/
def runCycle (extractCode : String → Option Nat) (ad : AdData)
    (eff : Option Nat) (counts : List (String × Nat)) (o : PostOutcome) :
    CycleResult :=
  match ad.roli_verification with
  | some roli =>
      if strBlank roli then
        let w := eff.getD 20
        ⟨counts,
          [⟨ad.id, 0, "trade ad post skipped (no roli_verification)",
            none, none, none, some w⟩],
          .cont w⟩
      else
        match post_trade_ad_direct o with
        | .ok _msg =>
            let counts2 := bumpCount counts ad.id
            let cnt := lookupCount counts2 ad.id
            let user_msg := successMessage cnt
            match eff with
            | some v =>
                ⟨counts2,
                  [⟨ad.id, cnt, user_msg, none, none, none, some v⟩],
                  .cont v⟩
            | none =>
                ⟨counts2,
                  [⟨ad.id, 0, "ad stopped (no valid interval configured)",
                    some "config", none, none, none⟩],
                  .halt⟩
        | .error err =>
            let w := eff.getD 20
            if is_verification err then
              ⟨counts,
                [⟨ad.id, 0, "trade ad post failed (verification_required)",
                  some "verification", some err, extractCode err, some w⟩],
                .cont w⟩
            else
              ⟨counts,
                [⟨ad.id, 0, "trade ad post error: " ++ err,
                  some "other", some err, extractCode err, some w⟩],
                .cont w⟩
  | none =>
      let w := eff.getD 20
      ⟨counts,
        [⟨ad.id, 0, "trade ad post skipped (no roli_verification)",
          none, none, none, some w⟩],
        .cont w⟩

/-- Whether the job has a usable credential: `roli_verification` present
and not blank after trimming — exactly the condition under which the loop
makes the network call.  Derived from the two skip guards
(src/src-tauri/src/ads_runner.rs, lines 79-80 and 174). -/
def hasCred (ad : AdData) : Bool :=
  match ad.roli_verification with
  | some r => !(strBlank r)
  | none => false

/-- The job loop run over a finite schedule of posting outcomes.  Each
list element is the environment's answer to one cycle's posting attempt;
exhausting the list models cancellation winning the `tokio::select!`
during a wait (cancellation is only observable there).  Returns the final
ledger, the concatenated event trace, and whether the loop terminated by
the fatal-configuration `break` (`true`) rather than by cancellation. -/
def runLoop (extractCode : String → Option Nat) (ad : AdData)
    (eff : Option Nat) :
    List (String × Nat) → List PostOutcome →
      List (String × Nat) × List AdPostedEvent × Bool
  | counts, [] => (counts, [], false)
  | counts, o :: rest =>
      let r := runCycle extractCode ad eff counts o
      match r.ctl with
      | .halt => (r.counts, r.events, true)
      | .cont _ =>
          let r2 := runLoop extractCode ad eff r.counts rest
          (r2.1, r.events ++ r2.2.1, r2.2.2)

/-- The whole spawned task: run the loop, then perform the
generation-checked self-deregistration with the task's own generation
(src/src-tauri/src/ads_runner.rs, lines 73-203). -/
def runJob (extractCode : String → Option Nat) (ad : AdData)
    (eff : Option Nat) (my_id : Nat) (reg : Registry)
    (counts : List (String × Nat)) (outcomes : List PostOutcome) :
    Registry × (List (String × Nat) × List AdPostedEvent × Bool) :=
  let r := runLoop extractCode ad eff counts outcomes
  (remove_if_current reg ad.id my_id, r)

/-- Embedding of the validation performed by the `start_ad` Tauri command
(src/src-tauri/src/lib.rs, lines 151-205): `adOpt` is the result of the
storage lookup; an override below 15 is rejected, otherwise it overwrites
the ad's stored interval; a resulting stored interval that is non-zero
but below 15 is rejected; stored 0 with no override is rejected as "no
interval"; otherwise `ads_runner::start_ad` runs against the scheduler
state.  On every rejection the state is returned unchanged (nothing is
registered or spawned, and the interval resolver is never reached). -/
def start_ad_cmd (adOpt : Option AdData) (interval_minutes : Option Nat)
    (s : RState) : Except String Unit × RState :=
  match adOpt with
  | none => (.error "Ad not found", s)
  | some ad0 =>
      let withOverride : Except String AdData :=
        match interval_minutes with
        | some i =>
            if i < 15 then .error "Interval must be at least 15 minutes"
            else .ok { ad0 with interval_minutes := i }
        | none => .ok ad0
      match withOverride with
      | .error e => (.error e, s)
      | .ok ad =>
          if ad.interval_minutes ≠ 0 ∧ ad.interval_minutes < 15 then
            (.error
              "Interval must be at least 15 minutes or 0 to inherit global interval",
              s)
          else if ad.interval_minutes = 0 ∧ interval_minutes = none then
            (.error
              "No posting interval specified. Set a global interval in the Ads manager or provide an interval_minutes when starting the ad.",
              s)
          else
            (.ok (), (start_ad_runner s ad.id).1)

/-- Number of success-classified outcomes in a schedule. -/
def successCount (outcomes : List PostOutcome) : Nat :=
  (outcomes.filter (fun o => classify_outcome o == OutcomeKind.success)).length

/-- Generations handed to spawned runners over a sequence of runner-level
start calls, in call order, together with the final state. -/
def runStarts (s : RState) : List String → RState × List Nat
  | [] => (s, [])
  | id :: rest =>
      let r := start_ad_runner s id
      let r2 := runStarts r.1 rest
      (r2.1, r.2.toList ++ r2.2)

/-- Concrete ad used by witnesses and counterexamples: a usable
credential and a stored interval of 30 minutes. -/
def adA : AdData := ⟨"a", "ad-a", 1, some "tok", [], [], [], 30⟩

/-- Lookup misses exactly when the key is absent from the key list. -/
theorem lookupReg_eq_none_iff (reg : Registry) (id : String) :
    lookupReg reg id = none ↔ id ∉ reg.map Prod.fst := by
  induction reg with
  | nil => simp [lookupReg]
  | cons p t ih =>
      obtain ⟨k, v⟩ := p
      by_cases hk : k = id
      · subst hk
        simp [lookupReg]
      · rw [List.map_cons]
        simp only [lookupReg, if_neg hk]
        constructor
        · intro h hmem
          rcases List.mem_cons.mp hmem with h1 | h1
          · exact hk h1.symm
          · exact (ih.mp h) h1
        · intro h
          exact ih.mpr (fun hm => h (List.mem_cons_of_mem _ hm))

/-- Under the no-duplicate-keys invariant, removing a key makes its lookup
miss. -/
theorem lookupReg_eraseReg_self (reg : Registry) (id : String)
    (h : keysNodup reg) : lookupReg (eraseReg reg id) id = none := by
  induction reg with
  | nil => simp [eraseReg, lookupReg]
  | cons p t ih =>
      obtain ⟨k, v⟩ := p
      simp only [keysNodup, List.map_cons, List.nodup_cons] at h
      by_cases hk : k = id
      · subst hk
        simpa [eraseReg, lookupReg_eq_none_iff] using h.1
      · simp only [eraseReg, if_neg hk, lookupReg, if_neg hk]
        exact ih h.2

/-- Removing a key only shrinks the key list. -/
theorem eraseReg_keys_subset (t : Registry) (id : String) :
    (eraseReg t id).map Prod.fst ⊆ t.map Prod.fst := by
  induction t with
  | nil => simp [eraseReg]
  | cons p u ih =>
      obtain ⟨k2, v2⟩ := p
      by_cases hk2 : k2 = id
      · subst hk2
        simp only [eraseReg, if_pos rfl]
        intro x hx
        exact List.mem_cons_of_mem _ hx
      · simp only [eraseReg, if_neg hk2, List.map_cons]
        intro x hx
        rcases List.mem_cons.mp hx with h1 | h1
        · simp [h1]
        · exact List.mem_cons_of_mem _ (ih h1)

/-- Removing a key preserves the no-duplicate-keys invariant. -/
theorem keysNodup_eraseReg (reg : Registry) (id : String)
    (h : keysNodup reg) : keysNodup (eraseReg reg id) := by
  induction reg with
  | nil => simpa [eraseReg] using h
  | cons p t ih =>
      obtain ⟨k, v⟩ := p
      simp only [keysNodup, List.map_cons, List.nodup_cons] at h
      by_cases hk : k = id
      · subst hk
        simpa [eraseReg, keysNodup] using h.2
      · simp only [eraseReg, if_neg hk, keysNodup, List.map_cons,
          List.nodup_cons]
        exact ⟨fun hm => h.1 (eraseReg_keys_subset t id hm), ih h.2⟩

/-- The ledger increment raises the entry for the bumped id by one. -/
theorem lookupCount_bumpCount (counts : List (String × Nat)) (id : String) :
    lookupCount (bumpCount counts id) id = lookupCount counts id + 1 := by
  induction counts with
  | nil => simp [bumpCount, lookupCount]
  | cons p t ih =>
      obtain ⟨k, v⟩ := p
      by_cases hk : k = id
      · subst hk
        simp [bumpCount, lookupCount]
      · simp [bumpCount, lookupCount, hk, ih]

/-- A usable credential means `roli_verification` holds a non-blank
token. -/
theorem hasCred_elim (ad : AdData) (h : hasCred ad = true) :
    ∃ r, ad.roli_verification = some r ∧ strBlank r = false := by
  unfold hasCred at h
  cases hrv : ad.roli_verification with
  | none => rw [hrv] at h; simp at h
  | some r =>
      rw [hrv] at h
      simp only [Bool.not_eq_true'] at h
      exact ⟨r, rfl, h⟩

/-- Success classification coincides with an `Ok` posting result. -/
theorem classify_success_iff (o : PostOutcome) :
    classify_outcome o = .success ↔ ∃ m, post_trade_ad_direct o = .ok m := by
  unfold classify_outcome
  cases hp : post_trade_ad_direct o with
  | ok m => simp
  | error e =>
      constructor
      · intro h
        by_cases hv : is_verification e <;> simp [hv] at h
      · rintro ⟨m, hm⟩
        exact Except.noConfusion hm

/-- Non-success classification coincides with an `Err` posting result. -/
theorem classify_not_success_iff (o : PostOutcome) :
    classify_outcome o ≠ .success ↔ ∃ e, post_trade_ad_direct o = .error e := by
  unfold classify_outcome
  cases hp : post_trade_ad_direct o with
  | ok m => simp
  | error e =>
      constructor
      · intro _; exact ⟨e, rfl⟩
      · intro _
        by_cases hv : is_verification e <;> simp [hv]

/-- Shape of a cycle without a usable credential: no call, no ledger
change, one skip event, continue with the fallback-resolved wait. -/
theorem runCycle_noCred (ec : String → Option Nat) (ad : AdData)
    (eff : Option Nat) (counts : List (String × Nat)) (o : PostOutcome)
    (h : hasCred ad = false) :
    runCycle ec ad eff counts o =
      ⟨counts,
        [⟨ad.id, 0, "trade ad post skipped (no roli_verification)",
          none, none, none, some (eff.getD 20)⟩],
        .cont (eff.getD 20)⟩ := by
  unfold hasCred at h
  cases hrv : ad.roli_verification with
  | none => simp [runCycle, hrv]
  | some r =>
      rw [hrv] at h
      have hb : strBlank r = true := by simpa using h
      simp [runCycle, hrv, hb]

/-- Shape of a successful cycle: ledger bumped, one event; with a set
interval continue with it, with an unset interval emit the fatal
configuration event and halt. -/
theorem runCycle_success_eq (ec : String → Option Nat) (ad : AdData)
    (eff : Option Nat) (counts : List (String × Nat)) (o : PostOutcome)
    (h : hasCred ad = true) (hs : classify_outcome o = .success) :
    runCycle ec ad eff counts o =
      (match eff with
       | some v =>
          ⟨bumpCount counts ad.id,
            [⟨ad.id, lookupCount (bumpCount counts ad.id) ad.id,
              successMessage (lookupCount (bumpCount counts ad.id) ad.id),
              none, none, none, some v⟩],
            .cont v⟩
       | none =>
          ⟨bumpCount counts ad.id,
            [⟨ad.id, 0, "ad stopped (no valid interval configured)",
              some "config", none, none, none⟩],
            .halt⟩) := by
  obtain ⟨r, hr, hb⟩ := hasCred_elim ad h
  obtain ⟨m, hm⟩ := (classify_success_iff o).1 hs
  cases eff <;> simp [runCycle, hr, hb, hm]

/-- Shape of a failed cycle: ledger unchanged, one failure event tagged
`verification` or `other`, continue with the fallback-resolved wait. -/
theorem runCycle_error_eq (ec : String → Option Nat) (ad : AdData)
    (eff : Option Nat) (counts : List (String × Nat)) (o : PostOutcome)
    (err : String) (h : hasCred ad = true)
    (he : post_trade_ad_direct o = .error err) :
    runCycle ec ad eff counts o =
      (if is_verification err then
        ⟨counts,
          [⟨ad.id, 0, "trade ad post failed (verification_required)",
            some "verification", some err, ec err, some (eff.getD 20)⟩],
          .cont (eff.getD 20)⟩
       else
        ⟨counts,
          [⟨ad.id, 0, "trade ad post error: " ++ err,
            some "other", some err, ec err, some (eff.getD 20)⟩],
          .cont (eff.getD 20)⟩) := by
  obtain ⟨r, hr, hb⟩ := hasCred_elim ad h
  by_cases hv : is_verification err <;> simp [runCycle, hr, hb, he, hv]

/-- With a set effective interval every cycle continues with exactly that
interval as the next wait. -/
theorem runCycle_some_ctl (ec : String → Option Nat) (ad : AdData)
    (v : Nat) (counts : List (String × Nat)) (o : PostOutcome) :
    (runCycle ec ad (some v) counts o).ctl = .cont v := by
  cases hcred : hasCred ad with
  | false =>
      rw [runCycle_noCred ec ad (some v) counts o hcred]
      rfl
  | true =>
      by_cases hs : classify_outcome o = .success
      · rw [runCycle_success_eq ec ad (some v) counts o hcred hs]
      · obtain ⟨e, he⟩ := (classify_not_success_iff o).1 hs
        rw [runCycle_error_eq ec ad (some v) counts o e hcred he]
        by_cases hv : is_verification e <;> simp [hv]

/-- With a set effective interval the loop never terminates on its own:
the fatal-configuration flag is never raised. -/
theorem runLoop_some_no_fatal (ec : String → Option Nat) (ad : AdData)
    (v : Nat) (counts : List (String × Nat)) (outcomes : List PostOutcome) :
    (runLoop ec ad (some v) counts outcomes).2.2 = false := by
  induction outcomes generalizing counts with
  | nil => rfl
  | cons o rest ih =>
      simp only [runLoop, runCycle_some_ctl ec ad v counts o]
      exact ih _

/-- A runner-level start always advances the counter by exactly one,
whether or not a loop is spawned (`fetch_add` precedes the
already-running check). -/
theorem start_ad_runner_counter (s : RState) (id : String) :
    (start_ad_runner s id).1.counter = s.counter + 1 := by
  unfold start_ad_runner
  by_cases hc : containsReg s.runners id = true <;> simp [hc]

/-- A spawned runner's generation tag is the counter value at call time. -/
theorem start_ad_runner_spawn_eq (s : RState) (id : String) (g : Nat)
    (h : (start_ad_runner s id).2 = some g) : g = s.counter := by
  unfold start_ad_runner at h
  by_cases hc : containsReg s.runners id = true
  · simp [hc] at h
  · simp [hc] at h
    exact h.symm

/-- The final counter after a sequence of runner-level starts advances by
exactly one per call. -/
theorem runStarts_counter (s : RState) (ids : List String) :
    (runStarts s ids).1.counter = s.counter + ids.length := by
  induction ids generalizing s with
  | nil => simp [runStarts]
  | cons id rest ih =>
      simp only [runStarts, List.length_cons]
      rw [ih, start_ad_runner_counter]
      omega

/-- Every generation handed out over a sequence of starts lies between
the starting counter (inclusive) and the final counter (exclusive). -/
theorem runStarts_tags_bounds (s : RState) (ids : List String) :
    ∀ g ∈ (runStarts s ids).2,
      s.counter ≤ g ∧ g < (runStarts s ids).1.counter := by
  induction ids generalizing s with
  | nil => simp [runStarts]
  | cons id rest ih =>
      intro g hg
      simp only [runStarts, List.mem_append] at hg
      have hctr := start_ad_runner_counter s id
      rcases hg with hg | hg
      · have hsome : (start_ad_runner s id).2 = some g := by
          cases hr : (start_ad_runner s id).2 with
          | none => rw [hr] at hg; simp at hg
          | some g2 =>
              rw [hr] at hg
              simp only [Option.toList_some, List.mem_singleton] at hg
              rw [hg]
        have hgc := start_ad_runner_spawn_eq s id g hsome
        refine ⟨le_of_eq hgc.symm, ?_⟩
        simp only [runStarts]
        rw [runStarts_counter, hctr]
        omega
      · have hbd := ih (start_ad_runner s id).1 g hg
        simp only [runStarts]
        refine ⟨?_, hbd.2⟩
        have := hbd.1
        omega

/-- The generations handed out over a sequence of starts are strictly
increasing in call order (in particular pairwise distinct). -/
theorem runStarts_tags_pairwise (s : RState) (ids : List String) :
    List.Pairwise (· < ·) (runStarts s ids).2 := by
  induction ids generalizing s with
  | nil => simp [runStarts]
  | cons id rest ih =>
      simp only [runStarts]
      rw [List.pairwise_append]
      refine ⟨?_, ih _, ?_⟩
      · cases hr : (start_ad_runner s id).2 <;> simp
      · intro a ha b hb
        have hsome : (start_ad_runner s id).2 = some a := by
          cases hr : (start_ad_runner s id).2 with
          | none => rw [hr] at ha; simp at ha
          | some g2 =>
              rw [hr] at ha
              simp only [Option.toList_some, List.mem_singleton] at ha
              rw [ha]
        have hac := start_ad_runner_spawn_eq s id a hsome
        have hbd := runStarts_tags_bounds (start_ad_runner s id).1 rest b hb
        have hctr := start_ad_runner_counter s id
        omega

/-- C1: generation-checked self-deregistration.  The exit cleanup removes
the registry entry for `id` exactly when the stored generation equals the
exiting loop's generation `g`, and otherwise leaves the registry
unchanged.  Consequently, when a job with old generation `gOld` is
stopped and then restarted (before the old loop's cleanup runs), the
restart registers the fresh generation `s.counter`, the stale cleanup
with `gOld` is a no-op, and the new runner remains registered. -/
theorem generation_checked_self_deregistration
    (reg : Registry) (id : String) (g : Nat) (s : RState) (gOld : Nat)
    (hreg : lookupReg s.runners id = some gOld)
    (hnodup : keysNodup s.runners)
    (hfresh : gOld < s.counter) :
    ((lookupReg reg id = some g →
        remove_if_current reg id g = eraseReg reg id)
      ∧ (lookupReg reg id ≠ some g → remove_if_current reg id g = reg))
    ∧ ((start_ad_runner (stop_ad_state s id) id).2 = some s.counter
      ∧ lookupReg (start_ad_runner (stop_ad_state s id) id).1.runners id
          = some s.counter
      ∧ remove_if_current
          (start_ad_runner (stop_ad_state s id) id).1.runners id gOld
          = (start_ad_runner (stop_ad_state s id) id).1.runners) := by
  refine ⟨⟨?_, ?_⟩, ?_⟩
  · intro h
    simp [remove_if_current, h]
  · intro h
    unfold remove_if_current
    cases hl : lookupReg reg id with
    | none => rfl
    | some g2 =>
        have hne : g2 ≠ g := fun hgg => h (hgg ▸ hl)
        simp [hne]
  · have hlook : lookupReg (eraseReg s.runners id) id = none :=
      lookupReg_eraseReg_self s.runners id hnodup
    have hne : s.counter ≠ gOld := Nat.ne_of_gt hfresh
    simp [start_ad_runner, stop_ad_state, containsReg, hlook, lookupReg,
      remove_if_current, hne]

/-- Closed witness for C1: job "a" running with generation 1 and counter
at 2 is stopped and restarted; the stale generation-1 cleanup leaves the
new registration untouched. -/
theorem generation_checked_self_deregistration_witness :
    remove_if_current
      (start_ad_runner (stop_ad_state ⟨[("a", 1)], 2, []⟩ "a") "a").1.runners
      "a" 1
      = (start_ad_runner (stop_ad_state ⟨[("a", 1)], 2, []⟩ "a") "a").1.runners :=
  (generation_checked_self_deregistration [("a", 1)] "a" 1
    ⟨[("a", 1)], 2, []⟩ 1 (by decide) (by decide) (by decide)).2.2.2

/-- C2: idempotent start / single-runner invariant.  When an entry for
`id` already exists, the runner-level start leaves the registry unchanged
and spawns nothing (the check and the reservation happen under the same
lock acquisition, modelled as one atomic step); and a start never breaks
the at-most-one-entry-per-identifier invariant. -/
theorem idempotent_start_single_runner (s : RState) (id : String) :
    (containsReg s.runners id = true →
        (start_ad_runner s id).1.runners = s.runners
        ∧ (start_ad_runner s id).2 = none)
    ∧ (keysNodup s.runners → keysNodup (start_ad_runner s id).1.runners) := by
  constructor
  · intro h
    simp [start_ad_runner, h]
  · intro h
    by_cases hc : containsReg s.runners id = true
    · simpa [start_ad_runner, hc] using h
    · have hc2 : containsReg s.runners id = false := by simpa using hc
      have hnone : lookupReg s.runners id = none := by
        unfold containsReg at hc2
        exact Option.not_isSome_iff_eq_none.1 (by simp [hc2])
      simp only [start_ad_runner, hc2, Bool.false_eq_true, if_false,
        keysNodup, List.map_cons, List.nodup_cons]
      exact ⟨(lookupReg_eq_none_iff s.runners id).1 hnone, h⟩

/-- Closed witness for C2: a duplicate start for the running job "a" is a
registry no-op that spawns nothing. -/
theorem idempotent_start_single_runner_witness :
    (start_ad_runner ⟨[("a", 1)], 2, []⟩ "a").1.runners = [("a", 1)]
    ∧ (start_ad_runner ⟨[("a", 1)], 2, []⟩ "a").2 = none :=
  (idempotent_start_single_runner ⟨[("a", 1)], 2, []⟩ "a").1 (by decide)

/-- C9 counterexample: with job "a" already running (registry holds
generation 1, counter at 2), a further start call spawns nothing yet the
counter still advances from 2 to 3 — the code performs `fetch_add`
before the already-running check, so an increment does occur for a start
call that does not spawn a loop. -/
theorem generation_counter_cex :
    containsReg ([("a", 1)] : Registry) "a" = true
    ∧ (start_ad_runner ⟨[("a", 1)], 2, []⟩ "a").2 = none
    ∧ (start_ad_runner ⟨[("a", 1)], 2, []⟩ "a").1.counter = 3 := by decide

/-- C9 as amended: the process-wide counter is incremented exactly once
per runner-level start call (spawning or not); a spawned runner's
generation is the counter value at its call; over any sequence of start
calls the counter advances by exactly the number of calls, every
handed-out generation lies below the final counter value, and the
handed-out generations are strictly increasing in call order — hence
never reused across the process lifetime. -/
theorem generation_counter_discipline :
    (∀ s id, (start_ad_runner s id).1.counter = s.counter + 1)
    ∧ (∀ s id g, (start_ad_runner s id).2 = some g → g = s.counter)
    ∧ (∀ s ids, (runStarts s ids).1.counter = s.counter + ids.length)
    ∧ (∀ s ids g, g ∈ (runStarts s ids).2 →
        s.counter ≤ g ∧ g < (runStarts s ids).1.counter)
    ∧ (∀ s ids, List.Pairwise (· < ·) (runStarts s ids).2) :=
  ⟨start_ad_runner_counter,
   start_ad_runner_spawn_eq,
   runStarts_counter,
   fun s ids g hg => runStarts_tags_bounds s ids g hg,
   runStarts_tags_pairwise⟩

/-- Closed witness for C9's amended theorem: over starts for "a" then
"b" from the initial state, the generation 1 handed to "a" lies between
the initial counter 1 and the final counter 3. -/
theorem generation_counter_discipline_witness :
    RState.initial.counter ≤ 1
    ∧ 1 < (runStarts RState.initial ["a", "b"]).1.counter :=
  generation_counter_discipline.2.2.2.1 RState.initial ["a", "b"] 1 (by decide)

/-- Every event of a cycle run with a set effective interval announces
exactly that interval as the next wait. -/
theorem runCycle_some_next_wait (ec : String → Option Nat) (ad : AdData)
    (v : Nat) (counts : List (String × Nat)) (o : PostOutcome) :
    ∀ e ∈ (runCycle ec ad (some v) counts o).events,
      e.next_wait_mins = some v := by
  intro e he
  cases hcred : hasCred ad with
  | false =>
      rw [runCycle_noCred ec ad (some v) counts o hcred] at he
      simp only [List.mem_singleton] at he
      subst he
      rfl
  | true =>
      by_cases hs : classify_outcome o = .success
      · rw [runCycle_success_eq ec ad (some v) counts o hcred hs] at he
        simp only [List.mem_singleton] at he
        subst he
        rfl
      · obtain ⟨er, her⟩ := (classify_not_success_iff o).1 hs
        rw [runCycle_error_eq ec ad (some v) counts o er hcred her] at he
        by_cases hv : is_verification er <;>
          simp only [hv, if_true, if_false, Bool.false_eq_true,
            List.mem_singleton] at he <;>
          subst he <;> rfl

/-- Every event of a loop run with a set effective interval announces
exactly that interval as the next wait: the cadence is fixed for the
loop's lifetime. -/
theorem runLoop_some_next_wait (ec : String → Option Nat) (ad : AdData)
    (v : Nat) (counts : List (String × Nat)) (outcomes : List PostOutcome) :
    ∀ e ∈ (runLoop ec ad (some v) counts outcomes).2.1,
      e.next_wait_mins = some v := by
  induction outcomes generalizing counts with
  | nil => intro e he; simp [runLoop] at he
  | cons o rest ih =>
      intro e he
      simp only [runLoop, runCycle_some_ctl ec ad v counts o,
        List.mem_append] at he
      rcases he with he | he
      · exact runCycle_some_next_wait ec ad v counts o e he
      · exact ih _ e he

/-- C3 counterexample: the runner draws no NetworkError/ApiError
distinction and does not consult the status class for Verification — a
transport failure with no status and a non-success status are both
emitted with the same kind tag `"other"`, and an auth-rejection status
(403) whose body lacks a verification marker is also tagged `"other"`,
not `"verification"`. -/
theorem result_classification_cex :
    ((runCycle (fun _ => none) adA (some 30) []
        (.transportError
          "error sending request for url (https://api.rolimons.com/tradeads/v1/createad)")).events.map
        AdPostedEvent.error_kind = [some "other"])
    ∧ ((runCycle (fun _ => none) adA (some 30) []
        (.response 500 "internal error")).events.map
        AdPostedEvent.error_kind = [some "other"])
    ∧ ((runCycle (fun _ => none) adA (some 30) []
        (.response 403 "access denied")).events.map
        AdPostedEvent.error_kind = [some "other"]) := by decide

/-- C3 as amended: the classifier yields Verification exactly when the
error string (whether a transport-failure message or the formatted
non-success response `"Failed to post trade ad: {status} - {body}"`)
starts with `"verification_required"` or case-insensitively contains
`"verification"`; every other failure — transport failures and
non-success statuses alike — falls into the single generic kind `other`;
a success status yields Success.  Concretely: 403 with body
`"verification_required"` → Verification, 500 with `"internal error"` →
other, a transport failure without a marker → other, 200 → Success. -/
theorem result_classification :
    classify_outcome (.response 403 "verification_required") = .verification
    ∧ classify_outcome (.response 500 "internal error") = .other
    ∧ (∀ m, is_verification m = false →
        classify_outcome (.transportError m) = .other)
    ∧ (∀ b, classify_outcome (.response 200 b) = .success)
    ∧ (∀ st b, classify_outcome (.response st b) = .success ↔
        isSuccessStatus st = true)
    ∧ (∀ o, classify_outcome o = .verification ↔
        ∃ e, post_trade_ad_direct o = .error e ∧ is_verification e = true) := by
  refine ⟨by decide, by decide, ?_, ?_, ?_, ?_⟩
  · intro m hm
    simp [classify_outcome, post_trade_ad_direct, hm]
  · intro b
    simp [classify_outcome, post_trade_ad_direct,
      show isSuccessStatus 200 = true from by decide]
  · intro st b
    by_cases hs : isSuccessStatus st = true
    · simp [classify_outcome, post_trade_ad_direct, hs]
    · have hs2 : isSuccessStatus st = false := by simpa using hs
      simp only [classify_outcome, post_trade_ad_direct, hs2,
        Bool.false_eq_true, if_false]
      constructor
      · intro h
        by_cases hv :
            is_verification
              ("Failed to post trade ad: " ++ statusLine st ++ " - " ++ b) <;>
          simp [hv] at h
      · intro h
        exact h.elim
  · intro o
    cases o with
    | transportError msg =>
        by_cases hv : is_verification msg
        · simp [classify_outcome, post_trade_ad_direct, hv]
        · simp [classify_outcome, post_trade_ad_direct, hv]
    | response st b =>
        by_cases hs : isSuccessStatus st = true
        · simp [classify_outcome, post_trade_ad_direct, hs]
        · have hs2 : isSuccessStatus st = false := by simpa using hs
          by_cases hv :
              is_verification
                ("Failed to post trade ad: " ++ statusLine st ++ " - " ++ b) <;>
            simp [classify_outcome, post_trade_ad_direct, hs2, hv]

/-- Closed witness for C3's amended theorem: a transport failure whose
message carries no verification marker is classified into the generic
kind. -/
theorem result_classification_witness :
    classify_outcome (.transportError "connection refused") = .other :=
  result_classification.2.2.1 "connection refused" (by decide)

/-- C4: interval resolver precedence — the override wins whenever present
(even when it is 0), else a non-zero stored value wins, else the result
is unset (a stored value of 0 encodes "absent", covering both
`resolve(None, Some 0)` and `resolve(None, None)`); and a loop spawned
with a resolved interval `some v` announces exactly `v` as the next wait
on every event of its lifetime, so the spawn-time resolution is fixed for
the loop. -/
theorem interval_resolver_precedence :
    (∀ v stored, resolveInterval (some v) stored = some v)
    ∧ resolveInterval (some 30) 60 = some 30
    ∧ resolveInterval none 45 = some 45
    ∧ resolveInterval none 0 = none
    ∧ (∀ stored, stored ≠ 0 → resolveInterval none stored = some stored)
    ∧ (∀ ec ad ov counts outcomes v,
        resolveInterval ov ad.interval_minutes = some v →
        ∀ e ∈ (runLoop ec ad (resolveInterval ov ad.interval_minutes)
            counts outcomes).2.1,
          e.next_wait_mins = some v) := by
  refine ⟨?_, rfl, rfl, rfl, ?_, ?_⟩
  · intro v stored; rfl
  · intro stored h
    simp [resolveInterval, h]
  · intro ec ad ov counts outcomes v hres e he
    rw [hres] at he
    exact runLoop_some_next_wait ec ad v counts outcomes e he

/-- Closed witness for C4: a stored interval of 45 with no override
resolves to 45. -/
theorem interval_resolver_precedence_witness :
    resolveInterval none 45 = some 45 :=
  interval_resolver_precedence.2.2.2.2.1 45 (by decide)

/-- C5: fatal config termination.  With an unset effective interval and a
usable credential, a cycle halts exactly when the post attempt succeeds,
and the halting cycle emits the fatal configuration event (kind
`config`, no next wait).  With a set interval a cycle never halts and the
loop never raises the fatal flag, so (other than cancellation, modelled
as exhausting the schedule) this is the only loop-termination condition.
A halting cycle ends the loop at once — no later outcome is processed,
so no further wait is entered — and the exiting task's registry effect is
exactly the generation-checked `remove_if_current`. -/
theorem fatal_config_termination :
    (∀ ec ad counts o, hasCred ad = true →
        ((runCycle ec ad none counts o).ctl = Ctl.halt ↔
          classify_outcome o = .success))
    ∧ (∀ ec ad counts o, hasCred ad = true → classify_outcome o = .success →
        (runCycle ec ad none counts o).events
          = [⟨ad.id, 0, "ad stopped (no valid interval configured)",
              some "config", none, none, none⟩])
    ∧ (∀ ec ad v counts o, (runCycle ec ad (some v) counts o).ctl ≠ Ctl.halt)
    ∧ (∀ ec ad v counts outcomes,
        (runLoop ec ad (some v) counts outcomes).2.2 = false)
    ∧ (∀ ec ad counts o rest, (runCycle ec ad none counts o).ctl = Ctl.halt →
        runLoop ec ad none counts (o :: rest)
          = ((runCycle ec ad none counts o).counts,
             (runCycle ec ad none counts o).events, true))
    ∧ (∀ ec ad eff my_id reg counts outcomes,
        (runJob ec ad eff my_id reg counts outcomes).1
          = remove_if_current reg ad.id my_id) := by
  refine ⟨?_, ?_, ?_, ?_, ?_, ?_⟩
  · intro ec ad counts o hcred
    constructor
    · intro hh
      by_contra hs
      obtain ⟨er, her⟩ := (classify_not_success_iff o).1 hs
      rw [runCycle_error_eq ec ad none counts o er hcred her] at hh
      by_cases hv : is_verification er <;> simp [hv] at hh
    · intro hs
      rw [runCycle_success_eq ec ad none counts o hcred hs]
  · intro ec ad counts o hcred hs
    rw [runCycle_success_eq ec ad none counts o hcred hs]
  · intro ec ad v counts o
    rw [runCycle_some_ctl ec ad v counts o]
    simp
  · exact runLoop_some_no_fatal
  · intro ec ad counts o rest hh
    simp only [runLoop, hh]
  · intro ec ad eff my_id reg counts outcomes
    rfl

/-- Closed witness for C5: with no effective interval, a successful post
for `adA` produces exactly the fatal configuration event. -/
theorem fatal_config_termination_witness :
    (runCycle (fun _ => none) adA none [] (.response 200 "ok")).events
      = [⟨"a", 0, "ad stopped (no valid interval configured)",
          some "config", none, none, none⟩] :=
  fatal_config_termination.2.1 (fun _ => none) adA [] (.response 200 "ok")
    (by decide) (by decide)

/-- C6: failure/skip absorption with fallback.  A skip cycle (credential
absent or blank, no call made) and a failed cycle both continue into the
wait with the effective interval when set and the fixed 20-minute
fallback otherwise, leaving the ledger unchanged — a skip or failure
never halts the loop and always produces a concrete finite wait. -/
theorem failure_skip_absorption :
    (∀ ec ad eff counts o, hasCred ad = false →
        (runCycle ec ad eff counts o).ctl = Ctl.cont (eff.getD 20)
        ∧ (runCycle ec ad eff counts o).counts = counts)
    ∧ (∀ ec ad eff counts o, hasCred ad = true →
        classify_outcome o ≠ .success →
        (runCycle ec ad eff counts o).ctl = Ctl.cont (eff.getD 20)
        ∧ (runCycle ec ad eff counts o).counts = counts) := by
  constructor
  · intro ec ad eff counts o h
    rw [runCycle_noCred ec ad eff counts o h]
    exact ⟨rfl, rfl⟩
  · intro ec ad eff counts o hcred hs
    obtain ⟨er, her⟩ := (classify_not_success_iff o).1 hs
    rw [runCycle_error_eq ec ad eff counts o er hcred her]
    by_cases hv : is_verification er <;> simp [hv]

/-- Closed witness for C6: a 500 failure with effective interval 30
continues into a 30-minute wait and leaves the ledger untouched. -/
theorem failure_skip_absorption_witness :
    (runCycle (fun _ => none) adA (some 30) [] (.response 500 "boom")).ctl
      = Ctl.cont ((some 30).getD 20)
    ∧ (runCycle (fun _ => none) adA (some 30) []
        (.response 500 "boom")).counts = [] :=
  failure_skip_absorption.2 (fun _ => none) adA (some 30) []
    (.response 500 "boom") (by decide) (by decide)

/-- With a set effective interval, the final ledger value for the job
equals the initial value plus the number of success-classified outcomes
in the schedule. -/
theorem runLoop_some_counts (ec : String → Option Nat) (ad : AdData)
    (v : Nat) (hcred : hasCred ad = true) (counts : List (String × Nat))
    (outcomes : List PostOutcome) :
    lookupCount (runLoop ec ad (some v) counts outcomes).1 ad.id
      = lookupCount counts ad.id + successCount outcomes := by
  induction outcomes generalizing counts with
  | nil => simp [runLoop, successCount]
  | cons o rest ih =>
      simp only [runLoop, runCycle_some_ctl ec ad v counts o]
      by_cases hs : classify_outcome o = .success
      · have hcounts :
            (runCycle ec ad (some v) counts o).counts
              = bumpCount counts ad.id := by
          rw [runCycle_success_eq ec ad (some v) counts o hcred hs]
        rw [hcounts, ih (bumpCount counts ad.id), lookupCount_bumpCount]
        simp only [successCount, List.filter_cons, beq_iff_eq, hs,
          if_true, List.length_cons]
        omega
      · have hcounts :
            (runCycle ec ad (some v) counts o).counts = counts := by
          obtain ⟨er, her⟩ := (classify_not_success_iff o).1 hs
          rw [runCycle_error_eq ec ad (some v) counts o er hcred her]
          by_cases hv : is_verification er <;> simp [hv]
        rw [hcounts, ih counts]
        simp [successCount, List.filter_cons, hs]

/-- C7: post-count ledger monotonicity.  The ledger is untouched by start
and stop, an absent entry reads 0, a successful cycle raises the job's
entry by exactly one, a skip or failed cycle leaves the ledger unchanged,
and over a whole loop run the final value is the initial value plus the
number of successes — in particular, from a fresh ledger, after `n`
successes with any interleaved skips and failures the value is `n`. -/
theorem post_count_ledger_monotonic :
    (∀ s id, ((start_ad_runner s id).1).counts = s.counts)
    ∧ (∀ s id, (stop_ad_state s id).counts = s.counts)
    ∧ (∀ id, lookupCount [] id = 0)
    ∧ (∀ ec ad eff counts o, hasCred ad = true →
        classify_outcome o = .success →
        lookupCount (runCycle ec ad eff counts o).counts ad.id
          = lookupCount counts ad.id + 1)
    ∧ (∀ ec ad eff counts o,
        hasCred ad = false ∨ classify_outcome o ≠ .success →
        (runCycle ec ad eff counts o).counts = counts)
    ∧ (∀ ec ad v counts outcomes, hasCred ad = true →
        lookupCount (runLoop ec ad (some v) counts outcomes).1 ad.id
          = lookupCount counts ad.id + successCount outcomes)
    ∧ (∀ ec ad v outcomes, hasCred ad = true →
        lookupCount (runLoop ec ad (some v) [] outcomes).1 ad.id
          = successCount outcomes) := by
  refine ⟨?_, ?_, ?_, ?_, ?_, ?_, ?_⟩
  · intro s id
    unfold start_ad_runner
    by_cases hc : containsReg s.runners id = true <;> simp [hc]
  · intro s id; rfl
  · intro id; rfl
  · intro ec ad eff counts o hcred hs
    have h := runCycle_success_eq ec ad eff counts o hcred hs
    cases eff <;> rw [h] <;> exact lookupCount_bumpCount counts ad.id
  · intro ec ad eff counts o hdisj
    rcases hdisj with hcred | hs
    · rw [runCycle_noCred ec ad eff counts o hcred]
    · cases hcred : hasCred ad with
      | false => rw [runCycle_noCred ec ad eff counts o hcred]
      | true =>
          obtain ⟨er, her⟩ := (classify_not_success_iff o).1 hs
          rw [runCycle_error_eq ec ad eff counts o er hcred her]
          by_cases hv : is_verification er <;> simp [hv]
  · intro ec ad v counts outcomes hcred
    exact runLoop_some_counts ec ad v hcred counts outcomes
  · intro ec ad v outcomes hcred
    have h := runLoop_some_counts ec ad v hcred [] outcomes
    simpa [lookupCount] using h

/-- Closed witness for C7: two successes interleaved with a failure give
a final ledger value of 2 (= `successCount` of the schedule) from a
fresh ledger. -/
theorem post_count_ledger_monotonic_witness :
    lookupCount (runLoop (fun _ => none) adA (some 30) []
        [.response 200 "ok", .response 500 "x", .response 200 "ok2"]).1 "a"
      = successCount
          [.response 200 "ok", .response 500 "x", .response 200 "ok2"] :=
  post_count_ledger_monotonic.2.2.2.2.2.2 (fun _ => none) adA 30
    [.response 200 "ok", .response 500 "x", .response 200 "ok2"] (by decide)

/-- Concrete ad without a credential, used by witnesses. -/
def adNoCred : AdData := ⟨"b", "ad-b", 2, none, [], [], [], 0⟩

/-- Appending to a nonempty string yields a nonempty string. -/
theorem append_ne_empty_left (a b : String) (h : a ≠ "") : a ++ b ≠ "" := by
  obtain ⟨la⟩ := a
  obtain ⟨lb⟩ := b
  intro hab
  apply h
  have hdata : la ++ lb = ([] : List Char) := congrArg String.data hab
  have h2 := List.append_eq_nil.mp hdata
  rw [h2.1]

/-- The success message is never empty. -/
theorem successMessage_ne_empty (cnt : Nat) : successMessage cnt ≠ "" := by
  unfold successMessage
  by_cases hc : cnt ≤ 1
  · simp only [hc, if_true]
    decide
  · simp only [hc, if_false]
    exact append_ne_empty_left ("trade ad post success (" ++ toString cnt) ")"
      (append_ne_empty_left "trade ad post success (" (toString cnt)
        (by decide))

/-- The skip message is non-empty. -/
theorem skip_msg_ne_empty :
    "trade ad post skipped (no roli_verification)" ≠ "" := by decide

/-- The fatal-configuration message is non-empty. -/
theorem config_msg_ne_empty :
    "ad stopped (no valid interval configured)" ≠ "" := by decide

/-- The verification-failure message is non-empty. -/
theorem verif_msg_ne_empty :
    "trade ad post failed (verification_required)" ≠ "" := by decide

/-- C8 counterexample: with job "a" holding a cumulative success count of
1, a failed cycle emits its event with `count = 0`, not the current
cumulative success count — the count field carries the cumulative value
only on success events. -/
theorem per_cycle_event_count_cex :
    lookupCount [("a", 1)] "a" = 1
    ∧ ((runCycle (fun _ => none) adA (some 30) [("a", 1)]
        (.response 500 "boom")).events.map AdPostedEvent.count = [0]) := by
  decide

/-- C8 as amended: every cycle emits exactly one status event; the event
always carries the job id and a non-empty human-readable message; a
success event carries the job's updated cumulative success count, while
skip, failure and config-fatal events carry `count = 0`; failure events
additionally carry a failure-kind tag (`"verification"` or `"other"`)
and the raw diagnostic text; skip events carry no failure kind. -/
theorem per_cycle_event_emission :
    (∀ ec ad eff counts o, (runCycle ec ad eff counts o).events.length = 1)
    ∧ (∀ ec ad eff counts o e, e ∈ (runCycle ec ad eff counts o).events →
        e.id = ad.id ∧ e.message ≠ "")
    ∧ (∀ ec ad v counts o e, hasCred ad = true →
        classify_outcome o = .success →
        e ∈ (runCycle ec ad (some v) counts o).events →
        e.count = lookupCount (runCycle ec ad (some v) counts o).counts ad.id)
    ∧ (∀ ec ad eff counts o e err, hasCred ad = true →
        post_trade_ad_direct o = .error err →
        e ∈ (runCycle ec ad eff counts o).events →
        e.count = 0 ∧ e.reason = some err
          ∧ (e.error_kind = some "verification"
            ∨ e.error_kind = some "other"))
    ∧ (∀ ec ad eff counts o e, hasCred ad = false →
        e ∈ (runCycle ec ad eff counts o).events →
        e.count = 0 ∧ e.error_kind = none) := by
  refine ⟨?_, ?_, ?_, ?_, ?_⟩
  · intro ec ad eff counts o
    cases hcred : hasCred ad with
    | false =>
        rw [runCycle_noCred ec ad eff counts o hcred]
        rfl
    | true =>
        by_cases hs : classify_outcome o = .success
        · rw [runCycle_success_eq ec ad eff counts o hcred hs]
          cases eff <;> rfl
        · obtain ⟨er, her⟩ := (classify_not_success_iff o).1 hs
          rw [runCycle_error_eq ec ad eff counts o er hcred her]
          by_cases hv : is_verification er <;> simp [hv]
  · intro ec ad eff counts o e he
    cases hcred : hasCred ad with
    | false =>
        rw [runCycle_noCred ec ad eff counts o hcred] at he
        simp only [List.mem_singleton] at he
        subst he
        exact ⟨rfl, skip_msg_ne_empty⟩
    | true =>
        by_cases hs : classify_outcome o = .success
        · rw [runCycle_success_eq ec ad eff counts o hcred hs] at he
          cases eff with
          | some v =>
              simp only [List.mem_singleton] at he
              subst he
              exact ⟨rfl, successMessage_ne_empty _⟩
          | none =>
              simp only [List.mem_singleton] at he
              subst he
              exact ⟨rfl, config_msg_ne_empty⟩
        · obtain ⟨er, her⟩ := (classify_not_success_iff o).1 hs
          rw [runCycle_error_eq ec ad eff counts o er hcred her] at he
          by_cases hv : is_verification er <;>
            simp only [hv, if_true, if_false, Bool.false_eq_true,
              List.mem_singleton] at he <;> subst he
          · exact ⟨rfl, verif_msg_ne_empty⟩
          · exact ⟨rfl,
              append_ne_empty_left "trade ad post error: " er (by decide)⟩
  · intro ec ad v counts o e hcred hs he
    rw [runCycle_success_eq ec ad (some v) counts o hcred hs] at he ⊢
    simp only [List.mem_singleton] at he
    subst he
    rfl
  · intro ec ad eff counts o e err hcred herr he
    rw [runCycle_error_eq ec ad eff counts o err hcred herr] at he
    by_cases hv : is_verification err <;>
      simp only [hv, if_true, if_false, Bool.false_eq_true,
        List.mem_singleton] at he <;> subst he
    · exact ⟨rfl, rfl, Or.inl rfl⟩
    · exact ⟨rfl, rfl, Or.inr rfl⟩
  · intro ec ad eff counts o e hcred he
    rw [runCycle_noCred ec ad eff counts o hcred] at he
    simp only [List.mem_singleton] at he
    subst he
    exact ⟨rfl, rfl⟩

/-- Closed witness for C8's amended theorem: the skip event of a
credential-less cycle carries count 0 and no failure kind. -/
theorem per_cycle_event_emission_witness :
    (⟨"b", 0, "trade ad post skipped (no roli_verification)",
      none, none, none, some 20⟩ : AdPostedEvent).count = 0
    ∧ (⟨"b", 0, "trade ad post skipped (no roli_verification)",
      none, none, none, some 20⟩ : AdPostedEvent).error_kind = none :=
  per_cycle_event_emission.2.2.2.2 (fun _ => none) adNoCred none []
    (.response 200 "ok")
    ⟨"b", 0, "trade ad post skipped (no roli_verification)",
      none, none, none, some 20⟩
    (by decide) (by decide)

/-- C10: the command-surface 15-minute floor.  The start command rejects
— returning an error with the scheduler state untouched, so nothing is
registered or spawned and the interval resolver is never reached — every
explicit override below 15 minutes and, when no override is given, every
stored interval that is non-zero but below 15; an override of at least
15 and a stored interval of 0 or at least 15 pass the floor (a stored 0
with no override then fails the separate no-interval check).  This floor
is an error case beyond AlreadyRunning and NoIntervalConfigured. -/
theorem min_interval_precondition :
    (∀ ad i s, i < 15 →
        start_ad_cmd (some ad) (some i) s
          = (.error "Interval must be at least 15 minutes", s))
    ∧ (∀ ad s, ad.interval_minutes ≠ 0 → ad.interval_minutes < 15 →
        start_ad_cmd (some ad) none s
          = (.error
              "Interval must be at least 15 minutes or 0 to inherit global interval",
              s))
    ∧ (∀ ad i s, 15 ≤ i →
        start_ad_cmd (some ad) (some i) s
          = (.ok (), (start_ad_runner s ad.id).1))
    ∧ (∀ ad s, 15 ≤ ad.interval_minutes →
        start_ad_cmd (some ad) none s
          = (.ok (), (start_ad_runner s ad.id).1))
    ∧ (∀ ad s, ad.interval_minutes = 0 →
        start_ad_cmd (some ad) none s
          = (.error
              "No posting interval specified. Set a global interval in the Ads manager or provide an interval_minutes when starting the ad.",
              s)) := by
  refine ⟨?_, ?_, ?_, ?_, ?_⟩
  · intro ad i s h
    simp [start_ad_cmd, h]
  · intro ad s h0 h15
    simp [start_ad_cmd, h0, h15]
  · intro ad i s h
    have h1 : ¬ i < 15 := by omega
    have h2 : i ≠ 0 := by omega
    simp [start_ad_cmd, h1, h2]
  · intro ad s h
    have h1 : ¬ ad.interval_minutes < 15 := by omega
    have h2 : ad.interval_minutes ≠ 0 := by omega
    simp [start_ad_cmd, h1, h2]
  · intro ad s h
    simp [start_ad_cmd, h]

/-- Closed witness for C10: an explicit override of 10 minutes is
rejected and leaves the initial scheduler state untouched. -/
theorem min_interval_precondition_witness :
    start_ad_cmd (some adA) (some 10) RState.initial
      = (.error "Interval must be at least 15 minutes", RState.initial) :=
  min_interval_precondition.1 adA 10 RState.initial (by decide)

end RoliAds
